import Mathlib

/-!
# Verification of the dot-jaeger trace-reconciliation pipeline

A shallow embedding of the core of `dot-jaeger` (files `src/primitives.rs`,
`src/graph.rs`, `src/daemon.rs`) together with theorems settling a list of
claims about its behaviour.

Conventions of the embedding:

* Rust `Result<T, anyhow::Error>` together with the possibility of a panic is
  modelled by `RResult`: `ok` for `Ok`, `err` for `Err`, and `panic` for an
  aborting panic (`Option::unwrap` on `None`, out-of-bounds string slicing,
  stack exhaustion of an unbounded recursion).
* `HashMap<&str, Span>` (the span map of a trace) is modelled as a `List Span`
  carrying the map's iteration order explicitly; map lookup is `find?` on the
  `span_id` field.  Well-formedness (distinct keys) is a hypothesis where a
  theorem needs it, since the map construction guarantees it.
* Machine numbers: `usize` fields are `Nat`; the `f64` fields hold either
  small exact integers (gauge values, bucket boundaries) or are merely copied
  around, so they are modelled as `Rat`; no claim depends on binary rounding.
* Rust strings are Lean `String`s.  Rust slices strings by UTF-8 bytes, so the
  byte-level behaviour of `&s[2..]` (including the panic inside a multi-byte
  character) is modelled explicitly via `Char.utf8Size`.
-/

/-- Result of running a piece of Rust code that may return `Err` or abort with
a panic. -/
inductive RResult (α : Type) where
  | ok : α → RResult α
  | err : String → RResult α
  | panic : String → RResult α
deriving DecidableEq, Repr

namespace RResult

def isOk {α : Type} : RResult α → Bool
  | .ok _ => true
  | _ => false

def isErr {α : Type} : RResult α → Bool
  | .err _ => true
  | _ => false

end RResult

/-- `primitives.rs`: `TagValue` — a tag value is a string, a boolean or a
number (`usize`). -/
inductive TagValue where
  | str : String → TagValue
  | boolean : Bool → TagValue
  | number : Nat → TagValue
deriving DecidableEq, Repr

/-- `primitives.rs`: `TagValue::to_string`. -/
def TagValue.toStr : TagValue → String
  | .str s => s
  | .boolean b => if b then "true" else "false"
  | .number n => Nat.repr n

/-- `primitives.rs`: `Tag`. -/
structure Tag where
  key : String
  ty : String
  value : TagValue
deriving DecidableEq, Repr

/-- `primitives.rs`: `Tag::value` (stringifies the tag value). -/
def Tag.valueString (t : Tag) : String := t.value.toStr

/-- `primitives.rs`: `Reference`. -/
structure Reference where
  ref_type : String
  trace_id : String
  span_id : String
deriving DecidableEq, Repr

/-- `primitives.rs`: `Span`.  The `logs` field (raw JSON values, read by no
code path of the repository) is not modelled. -/
structure Span where
  trace_id : String
  span_id : String
  flags : Option Nat
  operation_name : String
  references : List Reference
  start_time : Nat
  duration : Rat
  tags : List Tag
  process_id : String
  warnings : Option (List String)
deriving DecidableEq, Repr

/-- `primitives.rs`: `Span::get_tag` — first tag with the given key. -/
def Span.get_tag (s : Span) (key : String) : Option Tag :=
  s.tags.find? (fun t => t.key == key)

/-- `primitives.rs`: `Span::parent_span_id` — the span id of the first
`CHILD_OF` reference. -/
def Span.parent_span_id (s : Span) : Option String :=
  (s.references.find? (fun r => r.ref_type == "CHILD_OF")).map (fun r => r.span_id)

/-- `primitives.rs`: `Process`. -/
structure Process where
  service_name : String
  tags : List Tag
deriving DecidableEq, Repr

/-- `primitives.rs`: `TraceObject`.  The `spans` hash map is modelled as the
list of spans in the map's iteration order (`deserialize_vec_as_hashmap` keys
it by `span_id`, so the ids are distinct in every map produced by decoding). -/
structure TraceObject where
  trace_id : String
  spans : List Span
  processes : List (String × Process)
  warnings : Option (List String)
deriving DecidableEq, Repr

/-- Lookup in the span map (`self.spans.get(id)`). -/
def TraceObject.get (t : TraceObject) (id : String) : Option Span :=
  t.spans.find? (fun s => s.span_id == id)

/-- `primitives.rs`: `TraceObject::find_child` — the first span (in map
iteration order) that lists `id` as its parent. -/
def TraceObject.find_child (t : TraceObject) (id : String) : Option Span :=
  t.spans.find? (fun s => s.parent_span_id == some id)

/-- `primitives.rs`: `TraceObject::get_parent` — the span that is the parent
of the span with the given id. -/
def TraceObject.get_parent (t : TraceObject) (id : String) : Option Span :=
  match t.get id with
  | none => none
  | some s =>
    match s.parent_span_id with
    | none => none
    | some p => t.get p

/-- `daemon.rs`: `HASH_IDENTIFIER`. -/
def HASH_IDENTIFIER : String := "candidate-hash"

/-- `daemon.rs`: `STAGE_IDENTIFIER`. -/
def STAGE_IDENTIFIER : String := "candidate-stage"

/-- `daemon.rs`: `CandidateHash = [u8; 32]`, modelled as a list of 32 byte
values. -/
abbrev CandidateHash := List Nat

/-- The all-zero hash `[0u8; 32]`. -/
def zeroHash : CandidateHash := List.replicate 32 0

/-- Value of an ASCII hex digit. -/
def hexDigit? (c : Char) : Option Nat :=
  if '0' ≤ c ∧ c ≤ '9' then some (c.toNat - 48)
  else if 'a' ≤ c ∧ c ≤ 'f' then some (c.toNat - 87)
  else if 'A' ≤ c ∧ c ≤ 'F' then some (c.toNat - 70)
  else none

/-- Decode a list of hex characters, two per output byte; `none` on an odd
length or a non-hex character (the error cases of `hex::decode_to_slice`). -/
def hexPairs : List Char → Option (List Nat)
  | [] => some []
  | [_] => none
  | c1 :: c2 :: rest =>
    match hexDigit? c1, hexDigit? c2, hexPairs rest with
    | some h, some l, some bs => some ((h * 16 + l) :: bs)
    | _, _, _ => none

/-- `hex::decode_to_slice(src, &mut [0u8; 32])`: succeeds exactly when `src`
is 64 hex characters (64 bytes), producing the 32 decoded bytes. -/
def hexDecode64 (s : String) : Option CandidateHash :=
  if s.data.length = 64 then hexPairs s.data else none

/-- Rust `&s[2..]`: drop the first two *bytes* of a string.  Panics when the
string is shorter than two bytes or when byte offset 2 falls inside a
multi-byte character. -/
def rustSliceFrom2 (s : String) : RResult String :=
  match s.data with
  | [] => .panic "byte index 2 is out of bounds"
  | c :: rest =>
    if c.utf8Size = 2 then .ok (String.mk rest)
    else if c.utf8Size = 1 then
      match rest with
      | [] => .panic "byte index 2 is out of bounds"
      | c2 :: rest2 =>
        if c2.utf8Size = 1 then .ok (String.mk rest2)
        else .panic "byte index 2 is not a char boundary"
    else .panic "byte index 2 is not a char boundary"

/-- UTF-8 byte length of a string. -/
def utf8Len (s : String) : Nat := (s.data.map Char.utf8Size).sum

/-- `daemon.rs`: `extract_hash_from_span`, the decoding closure applied to
the tag's string value: slice off the first two bytes unconditionally,
hex-decode the rest into 32 bytes, and treat an all-zero result as absent. -/
def extract_hash_value (v : String) : RResult (Option CandidateHash) :=
  match rustSliceFrom2 v with
  | .panic e => .panic e
  | .err e => .err e
  | .ok tail =>
    match hexDecode64 tail with
    | none => .err "hex decode error"
    | some h => if h = zeroHash then .ok none else .ok (some h)

/-- `daemon.rs`: `extract_hash_from_span` (continued): look the tag up and
apply the decoding closure to its string value; a missing tag leaves the
all-zero buffer, which counts as absent. -/
def extract_hash_from_span (span : Span) : RResult (Option CandidateHash) :=
  match span.get_tag HASH_IDENTIFIER with
  | none => .ok none
  | some t => extract_hash_value t.valueString

/-- `daemon.rs`: `Stage` — note the enumeration of the source ends at
`BitfieldDistribution = 7`. -/
inductive Stage where
  | NoStage
  | CandidateSelection
  | CandidateBacking
  | StatementDistribution
  | PoVDistribution
  | AvailabilityDistribution
  | AvailabilityRecovery
  | BitfieldDistribution
deriving DecidableEq, Repr

/-- The numeric value of a stage (`Stage as usize`). -/
def Stage.toNat : Stage → Nat
  | .NoStage => 0
  | .CandidateSelection => 1
  | .CandidateBacking => 2
  | .StatementDistribution => 3
  | .PoVDistribution => 4
  | .AvailabilityDistribution => 5
  | .AvailabilityRecovery => 6
  | .BitfieldDistribution => 7

/-- The stage with a given numeric value (`0 ↦ NoStage`, …,
`7 ↦ BitfieldDistribution`). -/
def stageOfNat : Nat → Stage
  | 1 => .CandidateSelection
  | 2 => .CandidateBacking
  | 3 => .StatementDistribution
  | 4 => .PoVDistribution
  | 5 => .AvailabilityDistribution
  | 6 => .AvailabilityRecovery
  | 7 => .BitfieldDistribution
  | _ => .NoStage

/-- Numeric value of a list of ASCII digits, `none` if empty or containing a
non-digit. -/
def digitsVal (cs : List Char) : Option Nat :=
  if cs ≠ [] ∧ cs.all Char.isDigit then
    some (cs.foldl (fun a c => a * 10 + (c.toNat - 48)) 0)
  else none

/-- Rust `str::parse::<i32>`: optional single leading sign, one or more ASCII
digits, value within the `i32` range. -/
def parseI32 (s : String) : Option Int :=
  let signed : Bool × List Char :=
    match s.data with
    | '+' :: r => (true, r)
    | '-' :: r => (false, r)
    | r => (true, r)
  match digitsVal signed.2 with
  | none => none
  | some v =>
    let n : Int := if signed.1 then (v : Int) else -(v : Int)
    if -2147483648 ≤ n ∧ n ≤ 2147483647 then some n else none

/-- The match arms of `impl FromStr for Stage` on the parsed integer (`s` is
the original string, used in the error message of the `_` arm). -/
def stageCases (s : String) (n : Int) : RResult Stage :=
  if n = 0 then .ok .NoStage
  else if n = 1 then .ok .CandidateSelection
  else if n = 2 then .ok .CandidateBacking
  else if n = 3 then .ok .StatementDistribution
  else if n = 4 then .ok .PoVDistribution
  else if n = 5 then .ok .AvailabilityDistribution
  else if n = 6 then .ok .AvailabilityRecovery
  else if n = 7 then .ok .BitfieldDistribution
  else .err ("stage " ++ s ++ " does not exist")

/-- `daemon.rs`: `impl FromStr for Stage` — parse the string as an integer and
map `0`–`7` to the stages; everything else is an error. -/
def Stage.from_str (s : String) : RResult Stage :=
  match parseI32 s with
  | none => .err "invalid digit found in string"
  | some n => stageCases s n

/-- `daemon.rs`: `impl TryFrom<usize> for Stage`. -/
def stageTryFrom (num : Nat) : RResult Stage :=
  if num = 0 then .ok .NoStage
  else if num = 1 then .ok .CandidateSelection
  else if num = 2 then .ok .CandidateBacking
  else if num = 3 then .ok .StatementDistribution
  else if num = 4 then .ok .PoVDistribution
  else if num = 5 then .ok .AvailabilityDistribution
  else if num = 6 then .ok .AvailabilityRecovery
  else if num = 7 then .ok .BitfieldDistribution
  else .err ("stage " ++ Nat.repr num ++ " does not exist")

/-- `daemon.rs`: `extract_stage_from_span`. -/
def extract_stage_from_span (span : Span) : RResult (Option Stage) :=
  match span.get_tag STAGE_IDENTIFIER with
  | none => .ok none
  | some t =>
    match Stage.from_str t.valueString with
    | .ok st => .ok (some st)
    | .err e => .err e
    | .panic e => .panic e

example : Stage.from_str "4" = .ok .PoVDistribution := by decide
example : Stage.from_str "8" = .err "stage 8 does not exist" := by decide
example : Stage.from_str "+7" = .ok .BitfieldDistribution := by decide
example : Stage.from_str "x" = .err "invalid digit found in string" := by decide
example :
    hexDecode64 (String.mk (List.replicate 64 'a')) = some (List.replicate 32 170) := by
  decide

/-- `daemon.rs`: `Candidate`. -/
structure Candidate where
  hash : CandidateHash
  operation : String
  start_time : Nat
  duration : Rat
  stage : Stage
deriving DecidableEq, Repr

/-- `primitives.rs`: `TraceObject::recurse_children`, generic in the closure.
The closure `f` receives its captured mutable state and the found child, and
returns the (possibly partially) updated state along with `Ok(stop)`, an
error, or a panic; on `Ok(false)` the walk recurses on that child's id.  The
Rust recursion is unbounded (and overflows the stack on a trace whose parent
references are cyclic); the `fuel` argument models the available call stack,
and running out of it is a panic.  The middle component of the returned triple
is ghost instrumentation counting how many spans the closure was applied to;
it does not exist in the source. -/
def recurse_children (t : TraceObject) (f : σ → Span → σ × RResult Bool) :
    Nat → String → σ → σ × Nat × RResult Unit
  | 0, _, st => (st, 0, .panic "stack exhausted")
  | fuel + 1, id, st =>
    match t.find_child id with
    | none => (st, 0, .ok ())
    | some c =>
      match f st c with
      | (st', .ok true) => (st', 1, .ok ())
      | (st', .ok false) =>
        let r := recurse_children t f fuel c.span_id st'
        (r.1, r.2.1 + 1, r.2.2)
      | (st', .err e) => (st', 1, .err e)
      | (st', .panic e) => (st', 1, .panic e)

/-- The closure passed by `Metrics::try_resolve_missing` to
`recurse_children` (`daemon.rs` lines 345–355): fill in whichever of hash and
stage is still missing from the visited child's tags, and stop once both are
known.  The state is the pair (stage, hash) of captured mutable locals. -/
def resolve_step (st : Option Stage × Option CandidateHash) (c : Span) :
    (Option Stage × Option CandidateHash) × RResult Bool :=
  let stage := st.1
  let hash := st.2
  let hres : RResult (Option CandidateHash) :=
    if (c.get_tag HASH_IDENTIFIER).isSome && hash.isNone
    then extract_hash_from_span c else .ok hash
  match hres with
  | .err e => ((stage, hash), .err e)
  | .panic e => ((stage, hash), .panic e)
  | .ok hash' =>
    let sres : RResult (Option Stage) :=
      if (c.get_tag STAGE_IDENTIFIER).isSome && stage.isNone
      then extract_stage_from_span c else .ok stage
    match sres with
    | .err e => ((stage, hash'), .err e)
    | .panic e => ((stage, hash'), .panic e)
    | .ok stage' => ((stage', hash'), .ok (stage'.isSome && hash'.isSome))

/-- The walk performed inside `Metrics::try_resolve_missing`.  The fuel
`t.spans.length` is enough call stack for any trace whose parent references
are acyclic (a child chain cannot revisit a span without a cycle). -/
def resolve_walk (t : TraceObject) (span : Span)
    (stage0 : Option Stage) (hash0 : Option CandidateHash) :
    (Option Stage × Option CandidateHash) × Nat × RResult Unit :=
  recurse_children t resolve_step t.spans.length span.span_id (stage0, hash0)

/-- `daemon.rs`: `Metrics::try_resolve_missing`.  Reads hash and stage from
the span itself, then walks the span's descendants (the source never consults
ancestors; `recurse_parents` is defined in `primitives.rs` but never called).
The `Result` returned by `recurse_children` is discarded by the source (the
statement at line 345 ignores it), so a closure `Err` is swallowed — but a
panic raised inside the closure still aborts.  Finally the source unwraps both
options, which panics when either is still `None`. -/
def try_resolve_missing (t : TraceObject) (span : Span) : RResult Candidate :=
  match extract_stage_from_span span with
  | .err e => .err e
  | .panic e => .panic e
  | .ok stage0 =>
    match extract_hash_from_span span with
    | .err e => .err e
    | .panic e => .panic e
    | .ok hash0 =>
      let w := resolve_walk t span stage0 hash0
      match w.2.2 with
      | .panic e => .panic e
      | _ =>
        match w.1.2 with
        | none => .panic "called Option::unwrap() on a None value"
        | some h =>
          match w.1.1 with
          | none => .panic "called Option::unwrap() on a None value"
          | some s =>
            .ok { hash := h, operation := span.operation_name,
                  start_time := span.start_time, duration := span.duration,
                  stage := s }

/-- Ghost observer: how many descendant spans the walk inside
`try_resolve_missing` visits (0 when resolution fails before the walk). -/
def try_resolve_missing_visited (t : TraceObject) (span : Span) : Nat :=
  match extract_stage_from_span span, extract_hash_from_span span with
  | .ok stage0, .ok hash0 => (resolve_walk t span stage0 hash0).2.1
  | _, _ => 0

/-- `daemon.rs`: `HISTOGRAM_BUCKETS` — the 80 bucket boundaries, in
milliseconds.  Every boundary in the source is an integral `f64`, so the list
is modelled over `Nat`. -/
def HISTOGRAM_BUCKETS : List Nat :=
  [250, 500, 750, 1000, 1250, 1500, 1750, 2000, 2250, 2500, 2750, 3000, 3250,
   3500, 3750, 4000, 4250, 4500, 4750, 5000, 5250, 5500, 5750, 6000, 6250,
   6500, 6750, 7000, 7250, 7500, 7750, 8000, 8250, 8500, 8750, 9000, 9250,
   9500, 9750, 10000, 10250, 10500, 10750, 11000, 11250, 11500, 11750, 12000,
   12250, 12500, 12750, 13000, 13250, 13500, 13750, 14000, 15250, 15500,
   15750, 16000, 16250, 16500, 16750, 17000, 17250, 17500, 17750, 18000,
   18250, 18500, 18750, 19000, 19250, 19500, 19750, 20000, 20250, 20500,
   20750, 21000]

/-- The in-memory state of `daemon.rs`'s `Metrics` object: the per-stage
candidate lists of the current cycle (a `HashMap<Stage, Vec<Candidate>>`,
modelled as an association list), the total-count gauge, the eight per-stage
gauges (`[Gauge; 8]`), and the eight per-stage histograms, each modelled as
its list of recorded observations.  Gauge values are the exact integer counts
the code stores in them. -/
structure MetricsState where
  candidates : List (Stage × List Candidate)
  parachain_total_candidates : Nat
  parachain_stage_gauges : List Nat
  parachain_stage_histograms : List (List Rat)
deriving DecidableEq, Repr

/-- A freshly registered `Metrics` object (`Metrics::new`): no candidates,
all gauges at 0, all histograms empty. -/
def Metrics.fresh : MetricsState :=
  { candidates := []
  , parachain_total_candidates := 0
  , parachain_stage_gauges := List.replicate 8 0
  , parachain_stage_histograms := List.replicate 8 [] }

/-- Lookup in the per-stage candidate map. -/
def lookupStage (cands : List (Stage × List Candidate)) (st : Stage) :
    Option (List Candidate) :=
  (cands.find? (fun p => p.1 == st)).map (fun p => p.2)

/-- `daemon.rs`: `Metrics::insert_candidate` — push onto the stage's list,
creating it if absent. -/
def insert_candidate (m : MetricsState) (c : Candidate) : MetricsState :=
  if (lookupStage m.candidates c.stage).isSome then
    { m with candidates :=
        m.candidates.map (fun p => if p.1 == c.stage then (p.1, p.2 ++ [c]) else p) }
  else
    { m with candidates := m.candidates ++ [(c.stage, [c])] }

/-- `itertools`' `unique_by` on the hash field: keep the first candidate for
each distinct hash, in order. -/
def uniqueByHash (l : List Candidate) : List Candidate :=
  go [] l
where
  go (seen : List CandidateHash) : List Candidate → List Candidate
    | [] => []
    | c :: rest =>
      if c.hash ∈ seen then go seen rest
      else c :: go (c.hash :: seen) rest

/-- `daemon.rs`: `Metrics::clear` — clear the candidate lists only; the
exported metric objects persist. -/
def Metrics.clear (m : MetricsState) : MetricsState :=
  { m with candidates := [] }

/-- Record one observation in the histogram at index `i`. -/
def observeAt (hs : List (List Rat)) (i : Nat) (v : Rat) : List (List Rat) :=
  hs.set i ((hs.getD i []) ++ [v])

/-- The histogram loop of `Metrics::update_metrics`: for every stage present
in the candidate map, record `duration / 1000` for each of its candidates.
(`f64` division by 1000 is modelled exactly over `Rat`; no claim depends on
binary rounding of this quotient.) -/
def updateHistograms (cands : List (Stage × List Candidate))
    (hs : List (List Rat)) : List (List Rat) :=
  cands.foldl
    (fun hs p => p.2.foldl (fun hs c => observeAt hs p.1.toNat (c.duration / 1000)) hs)
    hs

/-- The gauge loop of `Metrics::update_metrics`: for gauge `i` (for `i` in
`0..8`), `Stage::try_from(i)?`, then set the gauge to the number of distinct
hashes of that stage's candidates — but only if the stage has an entry in the
candidate map; otherwise the gauge keeps its previous value. -/
def setStageGauges (cands : List (Stage × List Candidate)) :
    Nat → List Nat → RResult (List Nat)
  | _, [] => .ok []
  | i, g :: rest =>
    match stageTryFrom i with
    | .err e => .err e
    | .panic e => .panic e
    | .ok st =>
      let g' :=
        match lookupStage cands st with
        | none => g
        | some cs => (uniqueByHash cs).length
      match setStageGauges cands (i + 1) rest with
      | .ok rest' => .ok (g' :: rest')
      | .err e => .err e
      | .panic e => .panic e

/-- All candidate lists flattened (`self.candidates.values().flatten()`). -/
def allCandidates (cands : List (Stage × List Candidate)) : List Candidate :=
  cands.foldl (fun acc p => acc ++ p.2) []

/-- `daemon.rs`: `Metrics::update_metrics` (the flush): record histogram
observations, refresh the per-stage gauges, and set the total gauge to the
number of distinct hashes across all stages. -/
def update_metrics (m : MetricsState) : RResult MetricsState :=
  let hs := updateHistograms m.candidates m.parachain_stage_histograms
  match setStageGauges m.candidates 0 m.parachain_stage_gauges with
  | .err e => .err e
  | .panic e => .panic e
  | .ok gs =>
    let total := (uniqueByHash (allCandidates m.candidates)).length
    .ok { m with parachain_stage_gauges := gs,
                 parachain_stage_histograms := hs,
                 parachain_total_candidates := total }

/-- The resolvable parent edges of a trace, in span iteration order: for each
span whose `get_parent` resolves within the trace, the edge
`(parent span id, child span id)`.  Spans whose parent reference names an id
absent from the trace contribute no edge (the `if let Some(parent)` in
`Graph::new` silently skips them). -/
def edgesOf (t : TraceObject) (l : List Span) : List (String × String) :=
  l.filterMap
    (fun s => (t.get_parent s.span_id).map (fun p => (p.span_id, s.span_id)))

/-- The resolvable parent edges of the whole trace. -/
def allEdges (t : TraceObject) : List (String × String) :=
  edgesOf t t.spans

/-- The parent of `x` recorded in an edge list (the source of the first edge
whose target is `x`; each span contributes at most one edge targeting its own
id, so in graphs built from a trace this is unique). -/
def parentOf (edges : List (String × String)) (x : String) : Option String :=
  (edges.find? (fun e => e.2 == x)).map (fun e => e.1)

/-- Does iterating `parentOf` from `x` reach `tgt` within `fuel` steps
(including the 0-step case `x = tgt`)? -/
def ancReaches (edges : List (String × String)) : Nat → String → String → Bool
  | 0, x, tgt => x == tgt
  | fuel + 1, x, tgt =>
    x == tgt ||
      (match parentOf edges x with
       | none => false
       | some p => ancReaches edges fuel p tgt)

/-- `daggy::Dag::add_edge`'s cycle check, specialised to the graphs built by
`Graph::new` (at most one incoming edge per node): adding the edge
`parent → child` would close a cycle exactly when `child` is already an
ancestor of `parent`, i.e. the parent chain from `parent` reaches `child`
(length 0 included, covering a self-edge).  `edges.length` steps suffice to
explore any acyclic parent chain. -/
def would_cycle (edges : List (String × String)) (p c : String) : Bool :=
  ancReaches edges edges.length p c

/-- Does the edge list contain a directed cycle?  Equivalently: some edge
`(p, c)` (so `c`'s parent is `p`) has `c` among the ancestors of `p`. -/
def cyclicB (edges : List (String × String)) : Bool :=
  edges.any (fun e => ancReaches edges edges.length e.1 e.2)

/-- The edge-adding loop of `graph.rs`'s `Graph::new`: iterate the spans in
map order; for each span whose parent resolves in the trace, add the edge
`parent → span` unless it would close a cycle, in which case `daggy` returns
`WouldCycle` and the `?` aborts the build. -/
def Graph.newGo (t : TraceObject) :
    List Span → List (String × String) → RResult (List (String × String))
  | [], acc => .ok acc
  | s :: rest, acc =>
    match t.get_parent s.span_id with
    | none => Graph.newGo t rest acc
    | some p =>
      if would_cycle acc p.span_id s.span_id then .err "WouldCycle"
      else Graph.newGo t rest (acc ++ [(p.span_id, s.span_id)])

/-- `graph.rs`: `Graph::new`.  The node set is always the full span list; the
interesting content is the edge list, which the model returns. -/
def Graph.new (t : TraceObject) : RResult (List (String × String)) :=
  Graph.newGo t t.spans []

/-- `graph.rs`: `Graph::parents` — `daggy`'s `parents` walker iterates the
*immediate* parents of the node (sources of its incoming edges), not the
ancestor chain. -/
def Graph.parents (edges : List (String × String)) (id : String) : List String :=
  (edges.filter (fun e => e.2 == id)).map (fun e => e.1)

/-! ## Concrete traces used as witnesses and counterexamples -/

/-- A string-valued tag. -/
def strTag (k v : String) : Tag := { key := k, ty := "string", value := .str v }

/-- A `CHILD_OF` reference to the given span id. -/
def childRef (pid : String) : Reference :=
  { ref_type := "CHILD_OF", trace_id := "t1", span_id := pid }

/-- A test span with the given id, optional parent and tags. -/
def testSpan (id : String) (parent : Option String) (tags : List Tag) : Span :=
  { trace_id := "t1", span_id := id, flags := none, operation_name := "testop",
    references := (parent.map (fun p => [childRef p])).getD [],
    start_time := 0, duration := 150, tags := tags, process_id := "p1",
    warnings := none }

/-- A test trace holding the given spans, in this map iteration order. -/
def testTrace (spans : List Span) : TraceObject :=
  { trace_id := "t1", spans := spans, processes := [], warnings := none }

/-- `"0x"` followed by 64 `'a'`s: hex encoding of the hash `0xAA…AA`. -/
def aaHashStr : String := "0x" ++ String.mk (List.replicate 64 'a')

/-- The 32-byte hash `0xAA…AA`. -/
def aaHash : CandidateHash := List.replicate 32 170

/-- A trace with one single span carrying no tags at all: nothing can supply
its hash or stage. -/
def lonelyTrace : TraceObject := testTrace [testSpan "a" none []]

/-- The end-to-end scenario of the specification: `parent` has only a stage
tag, `child-0` (child of `parent`) only a hash tag, `child-1` (child of
`child-0`) no tags. -/
def scenarioTrace : TraceObject :=
  testTrace
    [ testSpan "parent" none [strTag STAGE_IDENTIFIER "4"]
    , testSpan "child-0" (some "parent") [strTag HASH_IDENTIFIER aaHashStr]
    , testSpan "child-1" (some "child-0") [] ]

/-! ## C1 — resolver behaviour when nothing supplies a hash -/

/-- C1: the claim (and the spec) say a span for which no candidate hash can
be recovered yields no candidate, with the resolver "returning absent rather
than failing or aborting".  The code instead panics: `try_resolve_missing`
ends in `hash.unwrap()`, which aborts when the hash is still `None` after the
descendant walk.  Evaluated at the failing input — a trace whose only span
carries no tags — the resolver panics. -/
theorem try_resolve_missing_panics_when_unresolvable :
    try_resolve_missing lonelyTrace (testSpan "a" none []) =
      .panic "called Option::unwrap() on a None value" := by
  decide

/-! ## C3 — no ancestor fallback exists -/

/-- C3: the claim says that when hash or stage is still missing after the
descendant walk, the resolver walks the parent chain, so that `child-1`
(carrying no tags, below ancestors carrying hash `0xAA…AA` and stage 4)
resolves to that candidate.  In the code `try_resolve_missing` never consults
ancestors (`recurse_parents` exists in `primitives.rs` but is never called):
on the specification's own scenario, resolution of `child-1` — and even of
`child-0`, which only lacks the stage — aborts with a panic instead of
producing a candidate. -/
theorem scenario_children_panic :
    try_resolve_missing scenarioTrace (testSpan "child-1" (some "child-0") []) =
      .panic "called Option::unwrap() on a None value" ∧
    try_resolve_missing scenarioTrace
        (testSpan "child-0" (some "parent") [strTag HASH_IDENTIFIER aaHashStr]) =
      .panic "called Option::unwrap() on a None value" := by
  constructor <;> decide

/-! ## C8 — histogram bucket boundaries -/

/-- C8: the claim (and the doc comment on `HISTOGRAM_BUCKETS` itself) say the
boundaries are linear with consecutive boundaries exactly 250 ms apart.  The
array instead jumps from 14000 to 15250 between indices 55 and 56 (the
boundaries 14250, 14500, 14750 and 15000 are missing), a step of 1250 ms. -/
theorem histogram_bucket_gap :
    HISTOGRAM_BUCKETS.length = 80 ∧
    HISTOGRAM_BUCKETS.getD 0 0 = 250 ∧
    HISTOGRAM_BUCKETS.getD 79 0 = 21000 ∧
    HISTOGRAM_BUCKETS.getD 55 0 = 14000 ∧
    HISTOGRAM_BUCKETS.getD 56 0 = 15250 ∧
    HISTOGRAM_BUCKETS.getD 56 0 - HISTOGRAM_BUCKETS.getD 55 0 ≠ 250 := by
  decide

/-! ## C9 — resolution depends on the span-map iteration order -/

/-- `"0x"` followed by 64 `'b'`s: hex encoding of the hash `0xBB…BB`. -/
def bbHashStr : String := "0x" ++ String.mk (List.replicate 64 'b')

/-- A root span with two children, each of which could supply both missing
fields, listed in one map iteration order… -/
def forkTraceAB : TraceObject :=
  testTrace
    [ testSpan "root" none []
    , testSpan "ca" (some "root") [strTag HASH_IDENTIFIER aaHashStr, strTag STAGE_IDENTIFIER "1"]
    , testSpan "cb" (some "root") [strTag HASH_IDENTIFIER bbHashStr, strTag STAGE_IDENTIFIER "2"] ]

/-- …and the same spans in the other iteration order. -/
def forkTraceBA : TraceObject :=
  testTrace
    [ testSpan "root" none []
    , testSpan "cb" (some "root") [strTag HASH_IDENTIFIER bbHashStr, strTag STAGE_IDENTIFIER "2"]
    , testSpan "ca" (some "root") [strTag HASH_IDENTIFIER aaHashStr, strTag STAGE_IDENTIFIER "1"] ]

/-- C9: `find_child` takes the first matching span in the hash map's
iteration order, so the descendant walk follows a single child chain chosen
by that order.  Two traces holding the *same* spans (the span lists are
permutations of each other) resolve the same root span to two different
candidates — resolution is not a function of the span set alone. -/
theorem resolution_depends_on_span_order :
    forkTraceAB.spans.Perm forkTraceBA.spans ∧
    try_resolve_missing forkTraceAB (testSpan "root" none []) =
      .ok { hash := List.replicate 32 170, operation := "testop",
            start_time := 0, duration := 150, stage := .CandidateSelection } ∧
    try_resolve_missing forkTraceBA (testSpan "root" none []) =
      .ok { hash := List.replicate 32 187, operation := "testop",
            start_time := 0, duration := 150, stage := .CandidateBacking } ∧
    ({ hash := List.replicate 32 170, operation := "testop", start_time := 0,
       duration := 150, stage := .CandidateSelection } : Candidate) ≠
      { hash := List.replicate 32 187, operation := "testop", start_time := 0,
        duration := 150, stage := .CandidateBacking } := by
  refine ⟨?_, by decide, by decide, by decide⟩
  decide

/-! ## C4 — range of successful stage parses -/

/-- C4 counterexample: the claim says stage parsing succeeds for the integers
0 through 8, mapping 8 to `ApprovalChecking`.  The source enumeration ends at
`BitfieldDistribution = 7` (there is no `ApprovalChecking` variant at all),
and parsing the string `"8"` is an error. -/
theorem stage_eight_rejected :
    Stage.from_str "8" = .err "stage 8 does not exist" := by decide

/-- C4 (amended): stage parsing succeeds exactly for strings that parse as an
integer in `[0, 7]` (Rust `i32` syntax: optional sign, decimal digits, within
`i32` range), mapping the value `n` to the stage numbered `n` — `0 ↦ NoStage`
through `7 ↦ BitfieldDistribution`; every other string is a parse failure. -/
theorem stage_from_str_range (s : String) :
    ((∃ st, Stage.from_str s = .ok st) ↔
      (∃ n : Int, parseI32 s = some n ∧ 0 ≤ n ∧ n ≤ 7)) ∧
    (∀ n : Int, parseI32 s = some n → 0 ≤ n → n ≤ 7 →
      Stage.from_str s = .ok (stageOfNat n.toNat)) := by
  have hcases : ∀ n : Int, parseI32 s = some n → Stage.from_str s = stageCases s n := by
    intro n hp
    unfold Stage.from_str
    rw [hp]
  constructor
  · constructor
    · rintro ⟨st, hst⟩
      cases hp : parseI32 s with
      | none =>
        unfold Stage.from_str at hst
        rw [hp] at hst
        cases hst
      | some n =>
        rw [hcases n hp] at hst
        refine ⟨n, rfl, ?_⟩
        unfold stageCases at hst
        split_ifs at hst <;> omega
    · rintro ⟨n, hp, h0, h7⟩
      rw [hcases n hp]
      unfold stageCases
      split_ifs with h₀ h₁ h₂ h₃ h₄ h₅ h₆ h₇
      · exact ⟨_, rfl⟩
      · exact ⟨_, rfl⟩
      · exact ⟨_, rfl⟩
      · exact ⟨_, rfl⟩
      · exact ⟨_, rfl⟩
      · exact ⟨_, rfl⟩
      · exact ⟨_, rfl⟩
      · exact ⟨_, rfl⟩
      · omega
  · intro n hp h0 h7
    rw [hcases n hp]
    unfold stageCases
    interval_cases n <;> simp [stageOfNat]

/-- C4 witness: at the concrete string `"4"` the hypotheses hold and parsing
yields the stage numbered 4 (`PoVDistribution`). -/
theorem stage_from_str_range_witness :
    Stage.from_str "4" = .ok (stageOfNat (Int.toNat 4)) :=
  (stage_from_str_range "4").2 4 (by decide) (by decide) (by decide)

/-! ## C10 — hash extraction slices two bytes unconditionally -/

/-- C10: hash extraction strips the first two bytes of the candidate-hash
tag's value unconditionally — whatever those bytes are, the remainder is what
gets hex-decoded — and when the value is shorter than two bytes the slice
`&value[2..]` panics instead of returning a parse error.  (The second part is
stated for values whose first two characters are single-byte; for the byte
lengths involved in hex-encoded hashes this is the general case.) -/
theorem extract_hash_slice_behaviour (s : Span) (tg : Tag)
    (htag : s.get_tag HASH_IDENTIFIER = some tg) :
    (utf8Len tg.valueString < 2 →
      extract_hash_from_span s = .panic "byte index 2 is out of bounds") ∧
    (∀ c1 c2 rest, tg.valueString.data = c1 :: c2 :: rest →
      c1.utf8Size = 1 → c2.utf8Size = 1 →
      extract_hash_from_span s =
        match hexDecode64 (String.mk rest) with
        | none => .err "hex decode error"
        | some h => if h = zeroHash then .ok none else .ok (some h)) := by
  have hval : extract_hash_from_span s = extract_hash_value tg.valueString := by
    unfold extract_hash_from_span
    rw [htag]
  constructor
  · intro hshort
    rw [hval]
    unfold utf8Len at hshort
    unfold extract_hash_value rustSliceFrom2
    cases hd : tg.valueString.data with
    | nil => rfl
    | cons c rest =>
      rw [hd] at hshort
      simp only [List.map_cons, List.sum_cons] at hshort
      have hc1 := c.utf8Size_pos
      have hc2 : c.utf8Size = 1 := by
        omega
      have hrest : rest = [] := by
        cases rest with
        | nil => rfl
        | cons d ds =>
          exfalso
          have hd1 := d.utf8Size_pos
          simp only [List.map_cons, List.sum_cons] at hshort
          omega
      subst hrest
      simp [hc2]
  · intro c1 c2 rest hd h1 h2
    rw [hval]
    unfold extract_hash_value rustSliceFrom2
    rw [hd]
    simp [h1, h2]

/-- C10 witness: a one-byte tag value panics, and a value whose first two
bytes are `"zz"` (not a recognized prefix) has them stripped all the same,
successfully decoding the remaining 64 `'a'`s. -/
theorem extract_hash_slice_behaviour_witness :
    extract_hash_from_span (testSpan "x" none [strTag HASH_IDENTIFIER "0"]) =
      .panic "byte index 2 is out of bounds" ∧
    extract_hash_from_span
        (testSpan "y" none
          [strTag HASH_IDENTIFIER ("zz" ++ String.mk (List.replicate 64 'a'))]) =
      .ok (some aaHash) := by
  constructor
  · exact (extract_hash_slice_behaviour (testSpan "x" none [strTag HASH_IDENTIFIER "0"])
      (strTag HASH_IDENTIFIER "0") (by decide)).1 (by decide)
  · refine ((extract_hash_slice_behaviour
      (testSpan "y" none
        [strTag HASH_IDENTIFIER ("zz" ++ String.mk (List.replicate 64 'a'))])
      (strTag HASH_IDENTIFIER ("zz" ++ String.mk (List.replicate 64 'a')))
      (by decide)).2 'z' 'z' (List.replicate 64 'a')
      (by decide) (by decide) (by decide)).trans ?_
    decide

/-! ## C7 — reset followed by flush with no candidates -/

/-- A candidate used to pre-load the gauges with non-zero values. -/
def candAA : Candidate :=
  { hash := aaHash, operation := "testop", start_time := 0, duration := 1000,
    stage := .CandidateSelection }

/-- The metrics state after one cycle that ingested `candAA` and flushed. -/
def mAfterOneCycle : MetricsState :=
  { candidates := [(.CandidateSelection, [candAA])]
  , parachain_total_candidates := 1
  , parachain_stage_gauges := [0, 1, 0, 0, 0, 0, 0, 0]
  , parachain_stage_histograms := [[], [candAA.duration / 1000], [], [], [], [], [], []] }

/-- What the second flush actually produces: candidate lists and total gauge
cleared, but the stage-1 gauge still holding 1. -/
def mSecondFlush : MetricsState :=
  { candidates := []
  , parachain_total_candidates := 0
  , parachain_stage_gauges := [0, 1, 0, 0, 0, 0, 0, 0]
  , parachain_stage_histograms := [[], [candAA.duration / 1000], [], [], [], [], [], []] }

/-- C7 counterexample: the claim says that after `reset()` (clearing the
cycle's candidate lists) a `flush()` with zero ingested candidates reads 0 on
every per-stage gauge and on the total gauge.  In `update_metrics` a
per-stage gauge is only written when its stage has an entry in the candidate
map, so after a clear the per-stage gauges keep their previous values: here
the stage-1 gauge still reads 1 while the total gauge reads 0. -/
theorem stage_gauge_stale_after_clear :
    update_metrics (insert_candidate Metrics.fresh candAA) = .ok mAfterOneCycle ∧
    update_metrics (Metrics.clear mAfterOneCycle) = .ok mSecondFlush ∧
    mSecondFlush.parachain_stage_gauges.getD 1 0 = 1 ∧
    mSecondFlush.parachain_total_candidates = 0 := by
  refine ⟨rfl, rfl, by decide, by decide⟩

/-- The gauge loop leaves every gauge untouched when the candidate map is
empty (for at most 8 gauges, so `Stage::try_from` never fails). -/
theorem setStageGauges_empty (gs : List Nat) : ∀ i, i + gs.length ≤ 8 →
    setStageGauges [] i gs = .ok gs := by
  induction gs with
  | nil => intro i _; rfl
  | cons g rest ih =>
    intro i hle
    simp only [List.length_cons] at hle
    have hi : i ≤ 7 := by omega
    have hok : stageTryFrom i = .ok (stageOfNat i) := by
      interval_cases i <;> rfl
    unfold setStageGauges
    rw [hok, ih (i + 1) (by omega)]
    rfl

/-- C7 (amended): calling `reset()` and then `flush()` with zero ingested
candidates sets the **total** gauge to 0 but leaves every per-stage gauge
(and every histogram) at its previous value, because the flush only writes a
per-stage gauge when that stage has an entry in the (now empty) candidate
map. -/
theorem update_metrics_after_clear (m : MetricsState)
    (hlen : m.parachain_stage_gauges.length = 8) :
    update_metrics (Metrics.clear m) =
      .ok { m with candidates := [], parachain_total_candidates := 0 } := by
  unfold update_metrics Metrics.clear
  simp only
  rw [setStageGauges_empty m.parachain_stage_gauges 0 (by omega)]
  rfl

/-- C7 witness: at the concrete freshly-registered metrics state the gauge
array has length 8 and the conclusion evaluates. -/
theorem update_metrics_after_clear_witness :
    update_metrics (Metrics.clear Metrics.fresh) =
      .ok { Metrics.fresh with candidates := [],
                               parachain_total_candidates := 0 } :=
  update_metrics_after_clear Metrics.fresh (by decide)

/-! ## C5 — when graph construction fails -/

/-- `find?` is stable under appending on the right once it has found a hit. -/
theorem find?_append_some {α : Type} (l₁ l₂ : List α) (p : α → Bool) (x : α)
    (h : l₁.find? p = some x) : (l₁ ++ l₂).find? p = some x := by
  induction l₁ with
  | nil => cases h
  | cons a as ih =>
    by_cases hp : p a
    · rw [List.find?_cons_of_pos _ hp] at h
      rw [List.cons_append, List.find?_cons_of_pos _ hp]
      exact h
    · rw [List.find?_cons_of_neg _ (by simpa using hp)] at h
      rw [List.cons_append, List.find?_cons_of_neg _ (by simpa using hp)]
      exact ih h

/-- `parentOf` is stable under appending edges. -/
theorem parentOf_append (l l' : List (String × String)) (x p : String)
    (h : parentOf l x = some p) : parentOf (l ++ l') x = some p := by
  unfold parentOf at h ⊢
  cases hf : l.find? (fun e => e.2 == x) with
  | none => rw [hf] at h; cases h
  | some e =>
    rw [hf] at h
    rw [find?_append_some _ _ _ _ hf]
    exact h

/-- A trivial reach: target already reached. -/
theorem ancReaches_of_beq (edges : List (String × String)) (f : Nat)
    (x tgt : String) (h : (x == tgt) = true) : ancReaches edges f x tgt = true := by
  cases f with
  | zero => exact h
  | succ f => unfold ancReaches; rw [h]; rfl

/-- Reachability along the parent map is monotone in both the edge list
(appending edges) and the fuel. -/
theorem ancReaches_mono (l l' : List (String × String)) :
    ∀ (f f' : Nat) (x tgt : String), f ≤ f' →
      ancReaches l f x tgt = true → ancReaches (l ++ l') f' x tgt = true := by
  intro f
  induction f with
  | zero =>
    intro f' x tgt _ h
    exact ancReaches_of_beq _ _ _ _ h
  | succ f ih =>
    intro f' x tgt hle h
    unfold ancReaches at h
    rcases Bool.or_eq_true_iff.mp h with hbe | hstep
    · exact ancReaches_of_beq _ _ _ _ hbe
    · cases hpo : parentOf l x with
      | none => rw [hpo] at hstep; cases hstep
      | some p =>
        rw [hpo] at hstep
        cases f' with
        | zero => omega
        | succ f'' =>
          unfold ancReaches
          rw [parentOf_append _ l' _ _ hpo]
          simp only [Bool.or_eq_true]
          right
          exact ih f'' p tgt (by omega) hstep

/-- Unfolding `edgesOf` over a cons cell. -/
theorem edgesOf_cons (t : TraceObject) (s : Span) (l : List Span) :
    edgesOf t (s :: l) =
      match t.get_parent s.span_id with
      | none => edgesOf t l
      | some p => (p.span_id, s.span_id) :: edgesOf t l := by
  unfold edgesOf
  rw [List.filterMap_cons]
  cases t.get_parent s.span_id <;> rfl

/-- The edge-adding loop succeeds, producing exactly the resolvable edges,
whenever the full resolvable edge set is acyclic: an edge can only be refused
when the edges accumulated so far (a prefix of the full set) already connect
its endpoints, which would exhibit a cycle in the full set. -/
theorem Graph.newGo_ok (t : TraceObject) :
    ∀ (rest : List Span) (acc : List (String × String)),
      cyclicB (acc ++ edgesOf t rest) = false →
      Graph.newGo t rest acc = .ok (acc ++ edgesOf t rest) := by
  intro rest
  induction rest with
  | nil =>
    intro acc _
    unfold Graph.newGo
    unfold edgesOf
    simp
  | cons s rest ih =>
    intro acc h
    rw [edgesOf_cons] at h ⊢
    unfold Graph.newGo
    cases hp : t.get_parent s.span_id with
    | none =>
      rw [hp] at h
      exact ih acc h
    | some p =>
      rw [hp] at h
      have h' : cyclicB (acc ++ (p.span_id, s.span_id) :: edgesOf t rest) = false := h
      have hwc : would_cycle acc p.span_id s.span_id = false := by
        by_contra hw
        rw [Bool.not_eq_false] at hw
        unfold would_cycle at hw
        have hmono :
            ancReaches (acc ++ (p.span_id, s.span_id) :: edgesOf t rest)
              (acc ++ (p.span_id, s.span_id) :: edgesOf t rest).length
              p.span_id s.span_id = true := by
          refine ancReaches_mono acc _ acc.length _ _ _ (by simp) hw
        have hcyc :
            cyclicB (acc ++ (p.span_id, s.span_id) :: edgesOf t rest) = true := by
          unfold cyclicB
          rw [List.any_eq_true]
          exact ⟨(p.span_id, s.span_id), by simp, hmono⟩
        rw [h'] at hcyc
        cases hcyc
      simp only [hwc, Bool.false_eq_true, if_false]
      have hstep := ih (acc ++ [(p.span_id, s.span_id)])
        (by rw [List.append_assoc]; exact h')
      rw [hstep, List.append_assoc]
      rfl

/-- A trace whose single span names a parent (`"zz"`) that is not a span of
the trace: a dangling parent reference. -/
def danglingTrace : TraceObject := testTrace [testSpan "a" (some "zz") []]

/-- C5 counterexample: the claim says graph construction fails exactly on a
dangling parent reference.  On `danglingTrace` the reference is dangling —
the span's parent id `"zz"` names no span of the trace — yet `Graph::new`
succeeds (with no edges): the `if let Some(parent) = trace.get_parent(id)`
in the source silently skips unresolvable references. -/
theorem dangling_parent_build_ok :
    (testSpan "a" (some "zz") []).parent_span_id = some "zz" ∧
    danglingTrace.get "zz" = none ∧
    Graph.new danglingTrace = .ok [] := by
  refine ⟨by decide, by decide, by decide⟩

/-- C5 (amended): graph construction never fails because of a dangling parent
reference — such references are skipped and simply produce no edge; for every
trace whose resolvable parent references are acyclic the build succeeds and
returns exactly those resolvable edges.  (A failure can therefore only occur
when the parent references contain a cycle, `daggy`'s `WouldCycle`.) -/
theorem graph_new_ok_of_acyclic (t : TraceObject)
    (h : cyclicB (allEdges t) = false) :
    Graph.new t = .ok (allEdges t) := by
  unfold Graph.new allEdges
  have := Graph.newGo_ok t t.spans [] (by simpa using h)
  simpa using this

/-- C5 witness: the specification's scenario trace is acyclic and builds into
its two parent edges. -/
theorem graph_new_ok_of_acyclic_witness :
    Graph.new scenarioTrace = .ok [("parent", "child-0"), ("child-0", "child-1")] :=
  (graph_new_ok_of_acyclic scenarioTrace (by decide)).trans (by decide)

/-! ## C6 — what `Graph::parents` yields -/

/-- Whenever the edge-adding loop returns `Ok`, the produced edge list is
exactly the accumulator followed by the resolvable edges of the remaining
spans (the loop never drops or reorders an edge it accepts). -/
theorem Graph.newGo_shape (t : TraceObject) :
    ∀ (rest : List Span) (acc res : List (String × String)),
      Graph.newGo t rest acc = .ok res → res = acc ++ edgesOf t rest := by
  intro rest
  induction rest with
  | nil =>
    intro acc res h
    unfold Graph.newGo at h
    cases h
    unfold edgesOf
    simp
  | cons s rest ih =>
    intro acc res h
    unfold Graph.newGo at h
    rw [edgesOf_cons]
    cases hp : t.get_parent s.span_id with
    | none =>
      rw [hp] at h
      exact ih acc res h
    | some p =>
      rw [hp] at h
      cases hwc : would_cycle acc p.span_id s.span_id with
      | true =>
        simp only [hwc] at h
        simp at h
      | false =>
        simp only [hwc] at h
        simp only [Bool.false_eq_true, if_false] at h
        have := ih _ res h
        rw [this, List.append_assoc]
        rfl

/-- If no span of `l` has span id `id`, no edge of `edgesOf t l` targets
`id`. -/
theorem edgesOf_filter_none (t : TraceObject) (id : String) :
    ∀ l : List Span, (∀ s ∈ l, (s.span_id == id) = false) →
      (edgesOf t l).filter (fun e => e.2 == id) = [] := by
  intro l
  induction l with
  | nil => intro _; rfl
  | cons a l ih =>
    intro hall
    have htail : ∀ s ∈ l, (s.span_id == id) = false :=
      fun s hs => hall s (List.mem_cons_of_mem _ hs)
    rw [edgesOf_cons]
    cases hp : t.get_parent a.span_id with
    | none => exact ih htail
    | some p =>
      rw [List.filter_cons]
      rw [show ((p.span_id, a.span_id).2 == id) = false from hall a (List.mem_cons_self a l)]
      simp only [Bool.false_eq_true, if_false]
      exact ih htail

/-- The edges of a trace with distinct span ids that target `id` are exactly
the (at most one) edge contributed by the span found under `id`. -/
theorem edgesOf_filter_find (t : TraceObject) (id : String) :
    ∀ l : List Span, (l.map Span.span_id).Nodup →
      (edgesOf t l).filter (fun e => e.2 == id) =
        (match l.find? (fun s => s.span_id == id) with
         | none => []
         | some s =>
            ((t.get_parent s.span_id).map (fun p => (p.span_id, s.span_id))).toList) := by
  intro l
  induction l with
  | nil => intro _; rfl
  | cons a l ih =>
    intro hnd
    rw [List.map_cons] at hnd
    have hnotin : a.span_id ∉ l.map Span.span_id := (List.nodup_cons.mp hnd).1
    have hnd' : (l.map Span.span_id).Nodup := (List.nodup_cons.mp hnd).2
    rw [edgesOf_cons]
    cases ha : (a.span_id == id) with
    | false =>
      rw [List.find?_cons_of_neg _ (by simp [ha])]
      cases hp : t.get_parent a.span_id with
      | none => exact ih hnd'
      | some p =>
        rw [List.filter_cons]
        rw [show ((p.span_id, a.span_id).2 == id) = false from ha]
        simp only [Bool.false_eq_true, if_false]
        exact ih hnd'
    | true =>
      rw [@List.find?_cons_of_pos Span (fun s => s.span_id == id) a l ha]
      have haid : a.span_id = id := by simpa using ha
      have htail : ∀ s ∈ l, (s.span_id == id) = false := by
        intro s hs
        have hne : s.span_id ≠ id := by
          intro he
          apply hnotin
          rw [haid, ← he]
          exact List.mem_map_of_mem Span.span_id hs
        simpa using hne
      have hr :
          (match (some a : Option Span) with
           | none => ([] : List (String × String))
           | some s =>
              ((t.get_parent s.span_id).map (fun p => (p.span_id, s.span_id))).toList) =
            ((t.get_parent a.span_id).map (fun p => (p.span_id, a.span_id))).toList := rfl
      rw [hr]
      cases hp : t.get_parent a.span_id with
      | none =>
        simpa using edgesOf_filter_none t id l htail
      | some p =>
        rw [List.filter_cons]
        rw [show ((p.span_id, a.span_id).2 == id) = true from ha]
        simp only [if_true]
        rw [edgesOf_filter_none t id l htail]
        rfl

/-- C6 counterexample: in the three-span chain of the scenario trace
(`parent ← child-0 ← child-1`), `Graph::parents` applied to `child-1` yields
only the immediate parent `child-0` — not the full nearest-first ancestor
sequence `[child-0, parent]` the claim describes — even though `parent` is an
ancestor of `child-1` (it is the parent of `child-0`).  The repository's own
test has the grandparent assertion commented out at exactly this point. -/
theorem graph_parents_immediate_only :
    Graph.new scenarioTrace = .ok [("parent", "child-0"), ("child-0", "child-1")] ∧
    Graph.parents [("parent", "child-0"), ("child-0", "child-1")] "child-1" =
      ["child-0"] ∧
    scenarioTrace.get_parent "child-0" =
      some (testSpan "parent" none [strTag STAGE_IDENTIFIER "4"]) ∧
    Graph.parents [("parent", "child-0"), ("child-0", "child-1")] "child-1" ≠
      ["child-0", "parent"] := by
  refine ⟨by decide, by decide, by decide, by decide⟩

/-- C6 (amended): for a graph built from a trace with distinct span ids,
`Graph::parents` yields exactly the *immediate* parent of the span — the one
span `get_parent` resolves, as a singleton sequence, or nothing for a root —
rather than the full ancestor chain.  In particular the sequence is finite,
never revisits a span, and its sole element is the nearest ancestor. -/
theorem graph_parents_eq_get_parent (t : TraceObject)
    (edges : List (String × String)) (id : String)
    (hok : Graph.new t = .ok edges)
    (hnd : (t.spans.map Span.span_id).Nodup) :
    Graph.parents edges id = ((t.get_parent id).map Span.span_id).toList := by
  have hedges : edges = allEdges t := by
    have := Graph.newGo_shape t t.spans [] edges hok
    simpa [allEdges] using this
  rw [hedges]
  unfold Graph.parents allEdges
  rw [edgesOf_filter_find t id t.spans hnd]
  cases hf : t.spans.find? (fun s => s.span_id == id) with
  | none =>
    have hgp : t.get_parent id = none := by
      unfold TraceObject.get_parent TraceObject.get
      rw [hf]
    rw [hgp]
    rfl
  | some s =>
    have hsid : s.span_id = id := by
      have := List.find?_some hf
      simpa using this
    have hr : List.map (fun e => e.1)
        (match (some s : Option Span) with
         | none => ([] : List (String × String))
         | some s =>
            ((t.get_parent s.span_id).map (fun p => (p.span_id, s.span_id))).toList) =
        List.map (fun e => e.1)
          (((t.get_parent s.span_id).map (fun p => (p.span_id, s.span_id))).toList) := rfl
    rw [hr, hsid]
    cases hgp : t.get_parent id with
    | none => rfl
    | some p => rfl

/-- C6 witness: on the scenario trace, `parents` of `child-1` is the
singleton holding its immediate parent `child-0`. -/
theorem graph_parents_eq_get_parent_witness :
    Graph.parents [("parent", "child-0"), ("child-0", "child-1")] "child-1" =
      ((scenarioTrace.get_parent "child-1").map Span.span_id).toList :=
  graph_parents_eq_get_parent scenarioTrace _ "child-1" (by decide) (by decide)

/-! ## C2 — the descendant walk has no depth bound -/

/-- Span ids of the synthetic chain: `"a"`, `"aa"`, `"aaa"`, … (distinct for
distinct indices). -/
def aId (i : Nat) : String := String.mk (List.replicate (i + 1) 'a')

/-- The tags carried by the far end of the chain: a candidate hash and a
stage. -/
def hashStageTags : List Tag :=
  [strTag HASH_IDENTIFIER aaHashStr, strTag STAGE_IDENTIFIER "4"]

/-- Span `i` of a chain of depth `k`: child of span `i - 1`, with the needed
tags only on the far end `i = k` (and no tags on the root). -/
def chainSpan (k i : Nat) : Span :=
  testSpan (aId i) (if i = 0 then none else some (aId (i - 1)))
    (if i = k ∧ i ≠ 0 then hashStageTags else [])

/-- The synthetic chain trace of depth `k`: spans `0, 1, …, k`, each the
child of the previous one; only span `k` carries the hash and stage tags. -/
def chainTrace (k : Nat) : TraceObject :=
  testTrace ((List.range (k + 1)).map (chainSpan k))

theorem aId_inj {i j : Nat} (h : aId i = aId j) : i = j := by
  have := congrArg (fun s => s.data.length) h
  simpa [aId] using this

theorem chainSpan_parent (k i : Nat) :
    (chainSpan k i).parent_span_id =
      if i = 0 then none else some (aId (i - 1)) := by
  by_cases hi : i = 0 <;>
    simp [chainSpan, testSpan, Span.parent_span_id, childRef, hi, List.find?]

/-- `find?` returns the unique element satisfying the predicate. -/
theorem find?_unique {α : Type} (p : α → Bool) (l : List α) (x : α)
    (hmem : x ∈ l) (hpx : p x = true)
    (huniq : ∀ y ∈ l, p y = true → y = x) : l.find? p = some x := by
  induction l with
  | nil => cases hmem
  | cons a as ih =>
    by_cases hpa : p a = true
    · rw [@List.find?_cons_of_pos _ p a as hpa]
      rw [huniq a (List.mem_cons_self a as) hpa]
    · rw [List.find?_cons_of_neg as hpa]
      rcases List.mem_cons.mp hmem with rfl | hmem'
      · exact absurd hpx hpa
      · exact ih hmem' (fun y hy hpy => huniq y (List.mem_cons_of_mem _ hy) hpy)

/-- In the chain trace, the unique child of span `i` (for `i < k`) is span
`i + 1`. -/
theorem chain_find_child (k i : Nat) (hik : i < k) :
    (chainTrace k).find_child (aId i) = some (chainSpan k (i + 1)) := by
  unfold chainTrace testTrace TraceObject.find_child
  refine find?_unique _ _ _ ?_ ?_ ?_
  · exact List.mem_map_of_mem (chainSpan k) (List.mem_range.mpr (by omega))
  · rw [chainSpan_parent]
    simp
  · intro y hy hpy
    obtain ⟨j, hj, rfl⟩ := List.mem_map.mp hy
    have hjk : j < k + 1 := List.mem_range.mp hj
    rw [chainSpan_parent] at hpy
    by_cases hj0 : j = 0
    · rw [if_pos hj0] at hpy
      cases hpy
    · rw [if_neg hj0] at hpy
      have : aId (j - 1) = aId i := by simpa using hpy
      have : j = i + 1 := by
        have := aId_inj this
        omega
      rw [this]

/-- The resolver's closure leaves the state untouched on a span with no
tags, telling the walk to continue exactly when a field is still missing. -/
theorem resolve_step_untagged (c : Span)
    (hh : c.get_tag HASH_IDENTIFIER = none)
    (hs : c.get_tag STAGE_IDENTIFIER = none) :
    resolve_step (none, none) c = ((none, none), .ok false) := by
  unfold resolve_step
  rw [hh, hs]
  rfl

/-- The resolver's closure fills in both fields and stops on the tagged far
end of the chain. -/
theorem resolve_step_tagged (c : Span) (hc : c.tags = hashStageTags) :
    resolve_step (none, none) c = ((some .PoVDistribution, some aaHash), .ok true) := by
  have h1 : c.get_tag HASH_IDENTIFIER = some (strTag HASH_IDENTIFIER aaHashStr) := by
    unfold Span.get_tag
    rw [hc]
    decide
  have h2 : c.get_tag STAGE_IDENTIFIER = some (strTag STAGE_IDENTIFIER "4") := by
    unfold Span.get_tag
    rw [hc]
    decide
  have hex : extract_hash_from_span c = .ok (some aaHash) := by
    unfold extract_hash_from_span
    rw [h1]
    decide
  have hst : extract_stage_from_span c = .ok (some Stage.PoVDistribution) := by
    unfold extract_stage_from_span
    rw [h2]
    decide
  unfold resolve_step
  rw [h1, h2]
  simp only [Option.isSome_some, Option.isNone_none, Bool.and_self, if_true, hex]
  simp only [hst]
  rfl

/-- The tags of a chain span. -/
theorem chainSpan_tags (k i : Nat) :
    (chainSpan k i).tags = if i = k ∧ i ≠ 0 then hashStageTags else [] := rfl

/-- One step of the walk, once the found child is known. -/
theorem recurse_children_step {σ : Type} (t : TraceObject)
    (f : σ → Span → σ × RResult Bool) (fuel : Nat) (id : String) (st : σ)
    (c : Span) (hc : t.find_child id = some c) :
    recurse_children t f (fuel + 1) id st =
      match f st c with
      | (st', .ok true) => (st', 1, .ok ())
      | (st', .ok false) =>
        let r := recurse_children t f fuel c.span_id st'
        (r.1, r.2.1 + 1, r.2.2)
      | (st', .err e) => (st', 1, .err e)
      | (st', .panic e) => (st', 1, .panic e) := by
  conv_lhs => unfold recurse_children
  rw [hc]
  rfl

/-- Walking the chain from span `i` with `d = k - i` spans left visits
exactly `d` descendants, fills in both fields from the far end, and stops
there — provided the fuel (the modelled call stack) allows `d` levels. -/
theorem chain_walk (k : Nat) :
    ∀ d i fuel, i + d = k → 0 < d → d ≤ fuel →
      recurse_children (chainTrace k) resolve_step fuel (aId i) (none, none) =
        ((some .PoVDistribution, some aaHash), d, .ok ()) := by
  intro d
  induction d with
  | zero =>
    intro i fuel _ h0 _
    omega
  | succ d ih =>
    intro i fuel hik hd hfuel
    have hik' : i < k := by omega
    obtain ⟨fuel', rfl⟩ : ∃ f', fuel = f' + 1 := ⟨fuel - 1, by omega⟩
    rw [recurse_children_step (chainTrace k) resolve_step fuel' (aId i) (none, none)
      (chainSpan k (i + 1)) (chain_find_child k i hik')]
    by_cases hlast : i + 1 = k
    · have hd0 : d = 0 := by omega
      subst hd0
      have htag : (chainSpan k (i + 1)).tags = hashStageTags := by
        rw [chainSpan_tags, if_pos ⟨hlast, by omega⟩]
      rw [resolve_step_tagged _ htag]
    · have huntag : (chainSpan k (i + 1)).tags = [] := by
        rw [chainSpan_tags, if_neg (fun h => hlast h.1)]
      have hh : (chainSpan k (i + 1)).get_tag HASH_IDENTIFIER = none := by
        unfold Span.get_tag
        rw [huntag]
        rfl
      have hs : (chainSpan k (i + 1)).get_tag STAGE_IDENTIFIER = none := by
        unfold Span.get_tag
        rw [huntag]
        rfl
      rw [resolve_step_untagged _ hh hs]
      rw [show (chainSpan k (i + 1)).span_id = aId (i + 1) from rfl]
      have hrec := ih (i + 1) fuel' (by omega) (by omega) (by omega)
      simp only [hrec]

/-- C2 (amended): the descendant walk follows the single first-child chain
with **no** depth bound — no `MAX_RECURSION_DEPTH` constant exists in the
source.  It stops at the first descendant after which both hash and stage
are known (or when no further child exists), however deep that is: for every
`k`, on the synthetic chain of depth `k + 1` whose tags sit only on the far
end, resolution visits all `k + 1` descendants and succeeds with the far
end's hash and stage. -/
theorem resolve_walk_unbounded (k : Nat) :
    try_resolve_missing_visited (chainTrace (k + 1)) (chainSpan (k + 1) 0) = k + 1 ∧
    try_resolve_missing (chainTrace (k + 1)) (chainSpan (k + 1) 0) =
      .ok { hash := aaHash, operation := "testop", start_time := 0,
            duration := 150, stage := .PoVDistribution } := by
  have h0tags : (chainSpan (k + 1) 0).tags = [] := by
    rw [chainSpan_tags, if_neg (fun h => h.2 rfl)]
  have hh0 : (chainSpan (k + 1) 0).get_tag HASH_IDENTIFIER = none := by
    unfold Span.get_tag
    rw [h0tags]
    rfl
  have hs0 : (chainSpan (k + 1) 0).get_tag STAGE_IDENTIFIER = none := by
    unfold Span.get_tag
    rw [h0tags]
    rfl
  have hst : extract_stage_from_span (chainSpan (k + 1) 0) = .ok none := by
    unfold extract_stage_from_span
    rw [hs0]
  have hhash : extract_hash_from_span (chainSpan (k + 1) 0) = .ok none := by
    unfold extract_hash_from_span
    rw [hh0]
  have hid0 : (chainSpan (k + 1) 0).span_id = aId 0 := rfl
  have hlen : (chainTrace (k + 1)).spans.length = k + 2 := by
    simp [chainTrace, testTrace]
  have hwalk := chain_walk (k + 1) (k + 1) 0 ((chainTrace (k + 1)).spans.length)
    (by omega) (by omega) (by rw [hlen]; omega)
  constructor
  · unfold try_resolve_missing_visited
    simp only [hst, hhash]
    unfold resolve_walk
    rw [hid0, hwalk]
  · unfold try_resolve_missing
    simp only [hst, hhash]
    unfold resolve_walk
    rw [hid0, hwalk]
    rfl

/-- C2 counterexample: the claim says the walk stops after at most
`MAX_RECURSION_DEPTH` (10) visited nodes for any trace shape.  On the chain
of depth 11 whose hash and stage sit only on the 11th descendant, the walk
visits 11 nodes — more than 10 — and resolution succeeds with the far tag
(whereas under the claimed bound the hash would have been out of reach). -/
theorem resolve_walk_depth_eleven :
    try_resolve_missing_visited (chainTrace 11) (chainSpan 11 0) = 11 ∧
    10 < try_resolve_missing_visited (chainTrace 11) (chainSpan 11 0) ∧
    try_resolve_missing (chainTrace 11) (chainSpan 11 0) =
      .ok { hash := aaHash, operation := "testop", start_time := 0,
            duration := 150, stage := .PoVDistribution } := by
  refine ⟨by decide, by decide, by decide⟩
